import Mathlib

/-!
Verification of the weather-daemon repository: a shallow embedding of the
duration codec (src/utils.rs), the API client (src/api.rs) and the daemon
loop (src/daemon.rs), with theorems settling the specification claims.

Modelling conventions:
* `std::time::Duration` values are modelled by their whole-second count as a
  `Nat`; every duration built by this program has zero nanoseconds.
* `u64` arithmetic is bounded by `2 ^ 64`; `str::parse::<u64>` rejects values
  that do not fit.  `Duration + Duration` panics on overflow of the `u64`
  second counter (in every build profile), and the `val * 60` / `val * 3600`
  multiplications overflow-panic in the default (debug) profile; both panics
  are modelled by the `ParseResult.crash` outcome.
* Rust's `str::to_lowercase` is modelled on the ASCII range by
  `Char.toLower`, which is exact for every input the claims mention.
-/

/-! ### Duration codec (src/utils.rs) -/

/-- The pattern `&['s', 'm', 'h']` of unit characters used by
`DurationWrapper::from_str`. -/
def unitPattern : List Char := ['s', 'm', 'h']

/-- Rust's `s.to_lowercase().replace(" ", "")`: lowercase the input, then remove
every space, producing the character list the splitter works on. -/
def preprocess (s : String) : List Char :=
  (s.data.map Char.toLower).filter (fun c => c ≠ ' ')

/-- Computes `s.split(pattern)` paired with `s.matches(pattern)`: returns the list of
segments between unit characters (always one more segment than separators,
the final one trailing the last separator) together with the list of matched
unit characters, in order. -/
def segmentsUnits : List Char → List (List Char) × List Char
  | [] => ([[]], [])
  | c :: cs =>
    let r := segmentsUnits cs
    if c ∈ unitPattern then
      ([] :: r.1, c :: r.2)
    else
      match r.1 with
      | s :: rest => ((c :: s) :: rest, r.2)
      | [] => ([[c]], r.2)

/-- The `(text, unit)` pairs traversed by the `for` loop:
`s.split(pattern).zip(s.matches(pattern))`.  `zip` stops at the shorter
iterator, so the trailing segment after the last unit character is dropped. -/
def unitSegments (s : String) : List (List Char × Char) :=
  let r := segmentsUnits (preprocess s)
  r.1.zip r.2

/-- The accumulator of decimal digit parsing: `fold (a, d) => a * 10 + d`. -/
def foldVal (a : Nat) (cs : List Char) : Nat :=
  cs.foldl (fun x c => x * 10 + (c.toNat - 48)) a

/-- A non-empty all-digit string evaluated in decimal, `none` otherwise. -/
def digitsVal (cs : List Char) : Option Nat :=
  if cs ≠ [] ∧ cs.all Char.isDigit then some (foldVal 0 cs) else none

/-- Models `text.parse::<u64>()`: an optional leading `+`, then one or more ASCII
digits, whose value must fit in a `u64`; anything else is a parse error. -/
def parseU64 (cs : List Char) : Option Nat :=
  let ds := match cs with
    | '+' :: rest => rest
    | _ => cs
  match digitsVal ds with
  | some v => if v < 2 ^ 64 then some v else none
  | none => none

/-- The error type `DurationParseError` from src/utils.rs. -/
inductive DurationParseError where
  | invalidNumber
  | durationNotFound
deriving DecidableEq, Repr

/-- Outcome of `DurationWrapper::from_str`: a total number of seconds, a
`DurationParseError`, or a duration-arithmetic overflow panic. -/
inductive ParseResult where
  | ok (secs : Nat)
  | err (e : DurationParseError)
  | crash
deriving DecidableEq, Repr

/-- The body of the `for (text, unit) in matches` loop: parse each segment as
a `u64` (failure is `InvalidNumber`), scale by the unit, and accumulate,
panicking when the scaled value or the running sum overflows the `u64`
second counter. -/
def runSegments : List (List Char × Char) → Nat → ParseResult
  | [], dur => .ok dur
  | (text, unit) :: rest, dur =>
    match parseU64 text with
    | none => .err .invalidNumber
    | some val =>
      let add := if unit = 's' then val
        else if unit = 'm' then val * 60
        else val * 3600
      if add ≥ 2 ^ 64 then .crash
      else if dur + add ≥ 2 ^ 64 then .crash
      else runSegments rest (dur + add)

/-- Models `DurationWrapper::from_str` (src/utils.rs lines 28–53): preprocess,
split/zip into unit-tagged segments, accumulate; zero traversed segments is
`DurationNotFound`. -/
def fromStr (s : String) : ParseResult :=
  let pairs := unitSegments s
  if pairs.isEmpty then .err .durationNotFound
  else runSegments pairs 0

/-- Decimal rendering of a `Nat`, least-significant digit folded onto the
accumulator; the fuel `n + 1` always suffices. -/
def natToCharsAux : Nat → Nat → List Char → List Char
  | 0, _, acc => acc
  | fuel + 1, n, acc =>
    let d := Char.ofNat (48 + n % 10)
    if n < 10 then d :: acc else natToCharsAux fuel (n / 10) (d :: acc)

/-- The decimal digit string of `n`, as Rust's `Display` for `u64` prints
it. -/
def natToChars (n : Nat) : List Char :=
  natToCharsAux (n + 1) n []

/-- Models `Display for DurationWrapper` (src/utils.rs lines 56–64): the total
seconds are split as `mins = secs / 60`, `secs % 60`, rendered as
`"{mins}m{secs}s"`. -/
def display (totalSecs : Nat) : String :=
  ⟨natToChars (totalSecs / 60) ++ ('m' :: (natToChars (totalSecs % 60) ++ ['s']))⟩

/-! ### JSON values (the `json` crate, as used by src/api.rs and
src/daemon.rs) -/

/-- The value type `json::JsonValue`; numbers are modelled as integers, which covers every
value the claims inspect. -/
inductive Json where
  | null
  | bool (b : Bool)
  | num (n : Int)
  | str (s : String)
  | arr (elems : List Json)
  | obj (fields : List (String × Json))

/-- Indexing `value[key]` on a `JsonValue`: member lookup on objects; indexing a
non-object (or a missing key) yields `Null`. -/
def Json.get : Json → String → Json
  | .obj fields, key =>
    match fields.lookup key with
    | some v => v
    | none => .null
  | _, _ => .null

/-- Indexing `value[i]` on a `JsonValue`: element access on arrays; indexing a
non-array, or past the end, yields `Null`. -/
def Json.idx : Json → Nat → Json
  | .arr elems, i => elems.getD i .null
  | _, _ => .null

/-- Models `JsonValue::is_null`. -/
def Json.isNull : Json → Bool
  | .null => true
  | _ => false

/-- Models `JsonValue::is_array`. -/
def Json.isArray : Json → Bool
  | .arr _ => true
  | _ => false

/-! ### API client (src/api.rs)

The network is an oracle: each category's `request.send()` either delivers a
parsed response document or fails at the transport level.  The `Instant`
clock is a `Nat`. -/

/-- Outcome of `request.send()` (plus `text()` and `json::parse`, which the
code also unwraps) for one category. -/
inductive NetOutcome where
  | success (doc : Json)
  | failure

/-- The flags `RequestTypes` (src/api.rs lines 57–62). -/
structure RequestTypes where
  current : Bool
  forecast : Bool
  alerts : Bool

/-- The mutable state of `Api`: the key and the three cache slots, each
holding a payload and the `Instant` it was fetched at. -/
structure ApiState where
  key : String
  cache_current : Option (Json × Nat)
  cache_alerts : Option (Json × Nat)
  cache_forecast : Option (Json × Nat)

/-- The error type `ApiResponseError` (src/api.rs lines 217–221).  `RequestError` carries a
`reqwest::Error`, which has no observable structure here. -/
inductive ApiResponseError where
  | requestError
  | apiError (doc : Json)

/-- The result record `ApiResponse` (src/api.rs lines 50–55). -/
structure ApiResponse where
  current : Option (Except ApiResponseError Json)
  alerts : Option (Except ApiResponseError Json)
  forecast : Option (Except ApiResponseError Json)

/-- Models `Api::make_current_request` (src/api.rs lines 164–190): build and send
the request (`send`, `text` and `json::parse` are all `unwrap`ped, so a
transport failure panics — modelled by `none`); on success the parsed
document is stored in `cache_current` with the current `Instant`,
unconditionally, and returned. -/
def make_current_request (st : ApiState) (net : NetOutcome) (now : Nat) :
    Option (Json × ApiState) :=
  match net with
  | .failure => none
  | .success doc => some (doc, { st with cache_current := some (doc, now) })

/-- Models `Api::make_alerts_request` (src/api.rs lines 144–162); identical shape,
targeting `cache_alerts`. -/
def make_alerts_request (st : ApiState) (net : NetOutcome) (now : Nat) :
    Option (Json × ApiState) :=
  match net with
  | .failure => none
  | .success doc => some (doc, { st with cache_alerts := some (doc, now) })

/-- Models `Api::make_forecast_request` (src/api.rs lines 192–214); identical
shape, targeting `cache_forecast`. -/
def make_forecast_request (st : ApiState) (net : NetOutcome) (now : Nat) :
    Option (Json × ApiState) :=
  match net with
  | .failure => none
  | .success doc => some (doc, { st with cache_forecast := some (doc, now) })

/-- The transport outcomes of one `make_request` call, one per category. -/
structure NetTriple where
  current : NetOutcome
  alerts : NetOutcome
  forecast : NetOutcome

/-- The per-category closure body in `Api::make_request`: when the flag is
set, run the fetch (propagating its panic), then classify the document by
its top-level `error` field — `Ok` when `json["error"].is_null()`, otherwise
`Err(ApiError(json))`.  A flag that is `false` yields `None` untouched. -/
def categoryCall (flag : Bool)
    (fetch : ApiState → Option (Json × ApiState)) (st : ApiState) :
    Option (Option (Except ApiResponseError Json) × ApiState) :=
  if flag then
    match fetch st with
    | none => none
    | some (doc, st') =>
      if (doc.get "error").isNull then some (some (.ok doc), st')
      else some (some (.error (.apiError doc)), st')
  else some (none, st)

/-- Models `Api::make_request` (src/api.rs lines 93–142): the `ApiResponse` struct
literal evaluates its three closures in order `current`, `alerts`,
`forecast`, each mutating `self` through the raw pointer.  The
`Err(req_err) => RequestError` arms are unreachable because the fetches
`unwrap` their transport errors. -/
def make_request (st : ApiState) (config : RequestTypes) (net : NetTriple)
    (now : Nat) : Option (ApiResponse × ApiState) :=
  (categoryCall config.current
      (fun s => make_current_request s net.current now) st).bind fun p1 =>
    (categoryCall config.alerts
        (fun s => make_alerts_request s net.alerts now) p1.2).bind fun p2 =>
      (categoryCall config.forecast
          (fun s => make_forecast_request s net.forecast now) p2.2).map
        fun p3 =>
          ({ current := p1.1, alerts := p2.1, forecast := p3.1 }, p3.2)

/-! ### Daemon loop (src/daemon.rs)

Simulation of `daemon_main` with instantaneous fetches and notifications:
the simulated clock is an `Int` (an `Instant` relative to an arbitrary
origin), and the state records how often `make_request` and the
notification branch ran. -/

/-- One observation point of the `daemon_main` loop state. -/
structure DaemonSim where
  now : Int
  lastIteration : Int
  lastNotif : Int
  fetchCount : Nat
  notifCount : Nat
deriving DecidableEq, Repr

/-- The loop state just before the first iteration (src/daemon.rs lines
139–141): `last_iteration = start` and
`last_notif = start - notif_interval`. -/
def daemonInit (start notifInterval : Int) : DaemonSim :=
  { now := start
    lastIteration := start
    lastNotif := start - notifInterval
    fetchCount := 0
    notifCount := 0 }

/-- One iteration of the `loop` in `daemon_main` (src/daemon.rs lines
143–277) with instantaneous work: `make_request` runs unconditionally; when
`last_notif.elapsed() >= notif_interval` the notification branch runs
(`last_notif = Instant::now()`), and — inside that same conditional — the
pacing step computes `next_iteration = last_iteration + exec_interval`,
resets `last_iteration = Instant::now()`, and sleeps until `next_iteration`
if it is still in the future.  When the condition is false the iteration
ends with no pacing at all. -/
def daemonStep (execInterval notifInterval : Int) (s : DaemonSim) :
    DaemonSim :=
  let fetched := { s with fetchCount := s.fetchCount + 1 }
  if fetched.now - fetched.lastNotif ≥ notifInterval then
    let lastNotif := fetched.now
    let notifCount := fetched.notifCount + 1
    let next := fetched.lastIteration + execInterval
    let lastIteration := fetched.now
    let now := if next > fetched.now then next else fetched.now
    { now := now
      lastIteration := lastIteration
      lastNotif := lastNotif
      fetchCount := fetched.fetchCount
      notifCount := notifCount }
  else fetched

/-- The alerts notification loop (src/daemon.rs lines 254–267):
`for alert in (0..).map(|i| &alert_array[i])`, breaking at the first null
element.  Indexing past the end of the array yields `Null`, so fuel
`length + 1` always suffices. -/
def alertLoop (alertArray : Json) : Nat → Nat → List Json
  | 0, _ => []
  | fuel + 1, i =>
    let alert := alertArray.idx i
    if alert.isNull then [] else alert :: alertLoop alertArray fuel (i + 1)

/-- The alerts half of the notification branch (src/daemon.rs lines
249–268): read `response["alerts"]["alert"]`; if it is not an array, panic
(`none`); otherwise emit one notification per record up to the first null
element. -/
def renderAlerts (response : Json) : Option (List Json) :=
  let alertArray := (response.get "alerts").get "alert"
  if alertArray.isArray then
    some (alertLoop alertArray
      ((match alertArray with | .arr l => l.length | _ => 0) + 1) 0)
  else none

/-! ### Concrete fixtures used by the claim theorems -/

/-- A healthy cached payload. -/
def okPayload : Json := .obj [("ok", .bool true)]

/-- A provider response whose top-level `error` field is non-empty. -/
def errorDoc : Json :=
  .obj [("error", .obj [("code", .num 2008),
                        ("message", .str "API key has been disabled.")])]

/-- An `Api` state whose current-weather slot was filled at `Instant` 5. -/
def apiSt : ApiState :=
  { key := "k"
    cache_current := some (okPayload, 5)
    cache_alerts := none
    cache_forecast := none }

/-- An alerts payload whose `alerts.alert` field is not list-shaped. -/
def badAlertsDoc : Json := .obj [("alerts", .obj [("alert", .str "oops")])]

/-- The records of a well-shaped alerts payload: one real alert, then an
explicit null, then an entry the loop never reaches. -/
def alertRecords : List Json :=
  [.obj [("headline", .str "Flood Warning"),
         ("instruction", .str "Move to higher ground")],
   .null,
   .str "unreached"]

/-- A well-shaped alerts payload built from `alertRecords`. -/
def goodAlertsDoc : Json := .obj [("alerts", .obj [("alert", .arr alertRecords)])]

/-- A character list containing no unit character. -/
def patFree (cs : List Char) : Prop := ∀ c ∈ cs, c ∉ unitPattern

/-- Append `ys` to the last element of a list of segments. -/
def extendLast (ys : List Char) : List (List Char) → List (List Char)
  | [] => []
  | [s] => [s ++ ys]
  | s :: rest => s :: extendLast ys rest

example : fromStr "10m5s" = .ok 605 := by decide
example : fromStr "" = .err .durationNotFound := by decide
example : fromStr "abc" = .err .durationNotFound := by decide
example : fromStr "xm" = .err .invalidNumber := by decide
example : fromStr "2h" = .ok 7200 := by decide
example : display 7200 = "120m0s" := by decide
example : fromStr "10m5" = .ok 600 := by decide
example : fromStr "1M 30s" = .ok 90 := by decide
example : fromStr "18446744073709551615s1sxm" = .crash := by decide

/-! ### Decimal digit lemmas -/

theorem natToChars_small {n : Nat} (h : n < 10) :
    natToChars n = [Char.ofNat (48 + n)] := by
  simp [natToChars, natToCharsAux, h, Nat.mod_eq_of_lt h]

theorem natToCharsAux_eq (n : Nat) : ∀ fuel acc, n ≤ fuel →
    natToCharsAux (fuel + 1) n acc = natToChars n ++ acc := by
  induction n using Nat.strong_induction_on with
  | _ n ih =>
    intro fuel acc hle
    by_cases h10 : n < 10
    · simp [natToCharsAux, h10, natToChars_small h10, Nat.mod_eq_of_lt h10]
    · have h10' : 10 ≤ n := Nat.le_of_not_lt h10
      have hdiv : n / 10 < n := Nat.div_lt_self (by omega) (by omega)
      have hfuel : fuel = (fuel - 1) + 1 := by omega
      have step : natToCharsAux (fuel + 1) n acc
          = natToCharsAux fuel (n / 10) (Char.ofNat (48 + n % 10) :: acc) := by
        simp [natToCharsAux, h10]
      have stepn : natToCharsAux (n + 1) n ([] : List Char)
          = natToCharsAux n (n / 10) ([Char.ofNat (48 + n % 10)]) := by
        simp [natToCharsAux, h10]
      rw [step, hfuel, ih (n / 10) hdiv (fuel - 1) _ (by omega)]
      show natToChars (n / 10) ++ (Char.ofNat (48 + n % 10) :: acc)
        = natToChars n ++ acc
      have happly := ih (n / 10) hdiv (n - 1) [Char.ofNat (48 + n % 10)]
        (by omega)
      rw [show n - 1 + 1 = n from by omega] at happly
      have hchars : natToChars n
          = natToChars (n / 10) ++ [Char.ofNat (48 + n % 10)] := by
        show natToCharsAux (n + 1) n [] = _
        rw [stepn, happly]
      rw [hchars, List.append_assoc, List.singleton_append]

theorem natToChars_step {n : Nat} (h : 10 ≤ n) :
    natToChars n = natToChars (n / 10) ++ [Char.ofNat (48 + n % 10)] := by
  have hdiv : n / 10 ≤ n - 1 := by
    have := Nat.div_lt_self (show 0 < n by omega) (show 1 < 10 by omega)
    omega
  show natToCharsAux (n + 1) n [] = _
  have step : natToCharsAux (n + 1) n ([] : List Char)
      = natToCharsAux n (n / 10) ([Char.ofNat (48 + n % 10)]) := by
    simp [natToCharsAux, Nat.not_lt_of_le h]
  have happly := natToCharsAux_eq (n / 10) (n - 1)
    [Char.ofNat (48 + n % 10)] hdiv
  rw [show n - 1 + 1 = n from by omega] at happly
  rw [step, happly]

theorem natToChars_mem {n : Nat} :
    ∀ c ∈ natToChars n, ∃ d, d < 10 ∧ c = Char.ofNat (48 + d) := by
  induction n using Nat.strong_induction_on with
  | _ n ih =>
    intro c hc
    by_cases h10 : n < 10
    · rw [natToChars_small h10] at hc
      simp at hc
      exact ⟨n, h10, hc⟩
    · have h10' : 10 ≤ n := Nat.le_of_not_lt h10
      rw [natToChars_step h10'] at hc
      rcases List.mem_append.mp hc with h | h
      · exact ih (n / 10) (Nat.div_lt_self (by omega) (by omega)) c h
      · simp at h
        exact ⟨n % 10, Nat.mod_lt _ (by omega), h⟩

theorem digit_props {d : Nat} (h : d < 10) :
    (Char.ofNat (48 + d)).isDigit = true ∧
    Char.toLower (Char.ofNat (48 + d)) = Char.ofNat (48 + d) ∧
    Char.ofNat (48 + d) ∉ unitPattern ∧
    Char.ofNat (48 + d) ≠ ' ' ∧
    Char.ofNat (48 + d) ≠ '+' ∧
    Char.ofNat (48 + d) ≠ 'h' ∧
    (Char.ofNat (48 + d)).toNat = 48 + d := by
  interval_cases d <;> decide

theorem natToChars_ne_nil (n : Nat) : natToChars n ≠ [] := by
  by_cases h10 : n < 10
  · rw [natToChars_small h10]; simp
  · rw [natToChars_step (Nat.le_of_not_lt h10)]; simp

theorem foldVal_append (a : Nat) (xs ys : List Char) :
    foldVal a (xs ++ ys) = foldVal (foldVal a xs) ys := by
  simp [foldVal, List.foldl_append]

theorem foldVal_natToChars (n : Nat) : foldVal 0 (natToChars n) = n := by
  induction n using Nat.strong_induction_on with
  | _ n ih =>
    by_cases h10 : n < 10
    · rw [natToChars_small h10]
      simp [foldVal, List.foldl, (digit_props h10).2.2.2.2.2.2]
    · have h10' : 10 ≤ n := Nat.le_of_not_lt h10
      rw [natToChars_step h10', foldVal_append,
        ih (n / 10) (Nat.div_lt_self (by omega) (by omega))]
      simp [foldVal, List.foldl,
        (digit_props (Nat.mod_lt n (show 0 < 10 by omega))).2.2.2.2.2.2]
      omega

theorem natToChars_all_digits (n : Nat) :
    (natToChars n).all Char.isDigit = true := by
  rw [List.all_eq_true]
  intro c hc
  rcases natToChars_mem c hc with ⟨d, hd, rfl⟩
  exact (digit_props hd).1

theorem digitsVal_natToChars (n : Nat) :
    digitsVal (natToChars n) = some n := by
  rw [digitsVal, if_pos ⟨natToChars_ne_nil n, natToChars_all_digits n⟩,
    foldVal_natToChars]

theorem parseU64_natToChars {n : Nat} (h : n < 2 ^ 64) :
    parseU64 (natToChars n) = some n := by
  have hds : (match natToChars n with
      | '+' :: rest => rest
      | _ => natToChars n) = natToChars n := by
    split
    · next rest heq =>
      exfalso
      have : '+' ∈ natToChars n := by rw [heq]; simp
      rcases natToChars_mem _ this with ⟨d, hd, hc⟩
      exact (digit_props hd).2.2.2.2.1 hc.symm
    · rfl
  show (match digitsVal (match natToChars n with
      | '+' :: rest => rest
      | _ => natToChars n) with
    | some v => if v < 2 ^ 64 then some v else none
    | none => none) = some n
  rw [hds, digitsVal_natToChars]
  show (if n < 2 ^ 64 then some n else none) = some n
  rw [if_pos h]

/-! ### Segmentation lemmas -/

theorem su_length (cs : List Char) :
    (segmentsUnits cs).1.length = (segmentsUnits cs).2.length + 1 := by
  induction cs with
  | nil => rfl
  | cons c cs ih =>
    by_cases h : c ∈ unitPattern
    · simp [segmentsUnits, h, ih]
    · rcases hr : (segmentsUnits cs).1 with _ | ⟨s, rest⟩
      · rw [hr] at ih; simp at ih
      · rw [hr] at ih
        simp [segmentsUnits, h, hr]
        simp at ih
        omega

theorem su_decomp (cs : List Char) :
    ∃ s rest, (segmentsUnits cs).1 = s :: rest := by
  rcases hr : (segmentsUnits cs).1 with _ | ⟨s, rest⟩
  · have := su_length cs; rw [hr] at this; simp at this
  · exact ⟨s, rest, rfl⟩

theorem su_cons_unit {c : Char} (cs : List Char) (h : c ∈ unitPattern) :
    segmentsUnits (c :: cs)
      = ([] :: (segmentsUnits cs).1, c :: (segmentsUnits cs).2) := by
  simp [segmentsUnits, h]

theorem su_cons_nonunit {c : Char} {cs : List Char} {s : List Char}
    {rest : List (List Char)} (h : c ∉ unitPattern)
    (hs : (segmentsUnits cs).1 = s :: rest) :
    segmentsUnits (c :: cs) = ((c :: s) :: rest, (segmentsUnits cs).2) := by
  simp [segmentsUnits, h, hs]

theorem su_patfree {cs : List Char} (h : patFree cs) :
    segmentsUnits cs = ([cs], []) := by
  induction cs with
  | nil => rfl
  | cons c cs ih =>
    have hc : c ∉ unitPattern := h c (List.mem_cons_self c cs)
    have htail : patFree cs := fun x hx => h x (List.mem_cons_of_mem c hx)
    have := ih htail
    rw [su_cons_nonunit hc (by rw [this]), this]

theorem su_prefix_patfree {xs : List Char} (hxs : patFree xs)
    (ys : List Char) {s : List Char} {rest : List (List Char)}
    {u : List Char} (hys : segmentsUnits ys = (s :: rest, u)) :
    segmentsUnits (xs ++ ys) = ((xs ++ s) :: rest, u) := by
  induction xs with
  | nil => simpa using hys
  | cons c xs ih =>
    have hc : c ∉ unitPattern := hxs c (List.mem_cons_self c xs)
    have htail : patFree xs := fun x hx => hxs x (List.mem_cons_of_mem c hx)
    have hmid := ih htail
    have hs1 : (segmentsUnits (xs ++ ys)).1 = (xs ++ s) :: rest := by
      rw [hmid]
    calc segmentsUnits ((c :: xs) ++ ys)
        = segmentsUnits (c :: (xs ++ ys)) := by rw [List.cons_append]
      _ = ((c :: (xs ++ s)) :: rest, (segmentsUnits (xs ++ ys)).2) :=
          su_cons_nonunit hc hs1
      _ = (((c :: xs) ++ s) :: rest, u) := by rw [hmid, List.cons_append]

theorem extendLast_cons (ys s : List Char) {S : List (List Char)}
    (h : S ≠ []) : extendLast ys (s :: S) = s :: extendLast ys S := by
  cases S with
  | nil => exact absurd rfl h
  | cons a as => rfl

theorem su_suffix_patfree {ys : List Char} (hys : patFree ys) :
    ∀ xs : List Char, segmentsUnits (xs ++ ys)
      = (extendLast ys (segmentsUnits xs).1, (segmentsUnits xs).2) := by
  intro xs
  induction xs with
  | nil => simp [su_patfree hys, segmentsUnits, extendLast]
  | cons c xs ih =>
    rcases su_decomp xs with ⟨s, rest, hs⟩
    by_cases hc : c ∈ unitPattern
    · calc segmentsUnits ((c :: xs) ++ ys)
          = segmentsUnits (c :: (xs ++ ys)) := by rw [List.cons_append]
        _ = ([] :: (segmentsUnits (xs ++ ys)).1,
              c :: (segmentsUnits (xs ++ ys)).2) := su_cons_unit _ hc
        _ = ([] :: extendLast ys (segmentsUnits xs).1,
              c :: (segmentsUnits xs).2) := by rw [ih]
        _ = (extendLast ys ([] :: (segmentsUnits xs).1),
              c :: (segmentsUnits xs).2) := by
            rw [hs, extendLast_cons ys ([] : List Char) (by simp)]
        _ = (extendLast ys (segmentsUnits (c :: xs)).1,
              (segmentsUnits (c :: xs)).2) := by rw [su_cons_unit _ hc]
    · cases rest with
      | nil =>
        have hs1 : (segmentsUnits (xs ++ ys)).1 = (s ++ ys) :: [] := by
          rw [ih, hs]; rfl
        have htop : segmentsUnits (c :: xs) = ((c :: s) :: [],
            (segmentsUnits xs).2) := su_cons_nonunit hc hs
        calc segmentsUnits ((c :: xs) ++ ys)
            = segmentsUnits (c :: (xs ++ ys)) := by rw [List.cons_append]
          _ = ((c :: (s ++ ys)) :: [], (segmentsUnits (xs ++ ys)).2) :=
              su_cons_nonunit hc hs1
          _ = ((c :: (s ++ ys)) :: [], (segmentsUnits xs).2) := by rw [ih]
          _ = (extendLast ys (segmentsUnits (c :: xs)).1,
                (segmentsUnits (c :: xs)).2) := by
              rw [htop]; rfl
      | cons r rs =>
        have hs1 : (segmentsUnits (xs ++ ys)).1
            = s :: extendLast ys (r :: rs) := by
          rw [ih, hs, extendLast_cons ys s (by simp)]
        have htop : segmentsUnits (c :: xs) = ((c :: s) :: r :: rs,
            (segmentsUnits xs).2) := su_cons_nonunit hc hs
        calc segmentsUnits ((c :: xs) ++ ys)
            = segmentsUnits (c :: (xs ++ ys)) := by rw [List.cons_append]
          _ = ((c :: s) :: extendLast ys (r :: rs),
                (segmentsUnits (xs ++ ys)).2) := su_cons_nonunit hc hs1
          _ = ((c :: s) :: extendLast ys (r :: rs),
                (segmentsUnits xs).2) := by rw [ih]
          _ = (extendLast ys (segmentsUnits (c :: xs)).1,
                (segmentsUnits (c :: xs)).2) := by
              rw [htop, extendLast_cons ys (c :: s) (by simp)]

theorem zip_extendLast (ys : List Char) :
    ∀ (S : List (List Char)) (U : List Char), S.length = U.length + 1 →
      (extendLast ys S).zip U = S.zip U := by
  intro S
  induction S with
  | nil => intro U h; simp at h
  | cons s S ih =>
    intro U h
    cases S with
    | nil =>
      have : U = [] := by simpa using h
      subst this
      simp
    | cons s' S' =>
      cases U with
      | nil => simp at h
      | cons u U' =>
        rw [extendLast_cons ys s (by simp)]
        simp only [List.zip_cons_cons]
        rw [ih U' (by simpa using h)]

/-! ### Preprocessing and display lemmas -/

theorem preprocess_id {l : List Char}
    (h : ∀ c ∈ l, Char.toLower c = c ∧ ¬ c = ' ') :
    (l.map Char.toLower).filter (fun c => c ≠ ' ') = l := by
  induction l with
  | nil => rfl
  | cons c cs ih =>
    have hc := h c (List.mem_cons_self c cs)
    have hcs := ih fun x hx => h x (List.mem_cons_of_mem c hx)
    simp only [List.map_cons, hc.1]
    rw [List.filter_cons_of_pos (by simpa using hc.2), hcs]

theorem patFree_natToChars (n : Nat) : patFree (natToChars n) := by
  intro c hc
  rcases natToChars_mem c hc with ⟨d, hd, rfl⟩
  exact (digit_props hd).2.2.1

theorem display_data (n : Nat) : (display n).data
    = natToChars (n / 60) ++ ('m' :: (natToChars (n % 60) ++ ['s'])) := rfl

theorem preprocess_display (n : Nat) :
    preprocess (display n)
      = natToChars (n / 60) ++ ('m' :: (natToChars (n % 60) ++ ['s'])) := by
  show (((display n).data.map Char.toLower).filter (fun c => c ≠ ' ')) = _
  rw [display_data]
  apply preprocess_id
  intro c hc
  rcases List.mem_append.mp hc with h | h
  · rcases natToChars_mem c h with ⟨d, hd, rfl⟩
    exact ⟨(digit_props hd).2.1, by
      have := (digit_props hd).2.2.2.1; simpa using this⟩
  · rcases List.mem_cons.mp h with h | h
    · subst h; exact ⟨by decide, by decide⟩
    · rcases List.mem_append.mp h with h | h
      · rcases natToChars_mem c h with ⟨d, hd, rfl⟩
        exact ⟨(digit_props hd).2.1, by
          have := (digit_props hd).2.2.2.1; simpa using this⟩
      · rcases List.mem_singleton.mp h with rfl
        exact ⟨by decide, by decide⟩

theorem unitSegments_display (n : Nat) :
    unitSegments (display n)
      = [(natToChars (n / 60), 'm'), (natToChars (n % 60), 's')] := by
  show ((segmentsUnits (preprocess (display n))).1.zip
    (segmentsUnits (preprocess (display n))).2) = _
  rw [preprocess_display]
  have h1 : segmentsUnits ['s'] = ([] :: [[]], ['s']) := by decide
  have h2 := su_prefix_patfree (patFree_natToChars (n % 60)) ['s'] h1
  have h3 : segmentsUnits ('m' :: (natToChars (n % 60) ++ ['s']))
      = ([] :: ((natToChars (n % 60) ++ []) :: [[]]), 'm' :: ['s']) := by
    rw [su_cons_unit _ (by decide), h2]
  have h4 := su_prefix_patfree (patFree_natToChars (n / 60)) _ h3
  rw [h4]
  simp

/-! ### Loop-accumulation lemmas -/

theorem runSegments_ok_lt : ∀ (ps : List (List Char × Char)) (dur n : Nat),
    dur < 2 ^ 64 → runSegments ps dur = .ok n → n < 2 ^ 64 := by
  intro ps
  induction ps with
  | nil =>
    intro dur n hd h
    simp only [runSegments, ParseResult.ok.injEq] at h
    omega
  | cons p rest ih =>
    intro dur n hd h
    rcases p with ⟨text, unit⟩
    cases hp : parseU64 text with
    | none =>
      simp only [runSegments, hp] at h
      exact ParseResult.noConfusion h
    | some val =>
      simp only [runSegments, hp] at h
      by_cases h1 : (if unit = 's' then val
          else if unit = 'm' then val * 60 else val * 3600) ≥ 2 ^ 64
      · rw [if_pos h1] at h; cases h
      · rw [if_neg h1] at h
        by_cases h2 : dur + (if unit = 's' then val
            else if unit = 'm' then val * 60 else val * 3600) ≥ 2 ^ 64
        · rw [if_pos h2] at h; cases h
        · rw [if_neg h2] at h
          exact ih _ n (by omega) h

theorem runSegments_ne_notFound : ∀ (ps : List (List Char × Char))
    (dur : Nat), runSegments ps dur ≠ .err .durationNotFound := by
  intro ps
  induction ps with
  | nil => intro dur h; cases h
  | cons p rest ih =>
    intro dur h
    rcases p with ⟨text, unit⟩
    cases hp : parseU64 text with
    | none =>
      simp only [runSegments, hp] at h
      exact DurationParseError.noConfusion (ParseResult.err.inj h)
    | some val =>
      simp only [runSegments, hp] at h
      by_cases h1 : (if unit = 's' then val
          else if unit = 'm' then val * 60 else val * 3600) ≥ 2 ^ 64
      · rw [if_pos h1] at h; cases h
      · rw [if_neg h1] at h
        by_cases h2 : dur + (if unit = 's' then val
            else if unit = 'm' then val * 60 else val * 3600) ≥ 2 ^ 64
        · rw [if_pos h2] at h; cases h
        · rw [if_neg h2] at h
          exact ih _ h

theorem runSegments_invalid : ∀ (ps : List (List Char × Char)) (dur : Nat),
    (∃ p ∈ ps, parseU64 p.1 = none) → runSegments ps dur ≠ .crash →
    runSegments ps dur = .err .invalidNumber := by
  intro ps
  induction ps with
  | nil => intro dur h; rcases h with ⟨p, hp, _⟩; cases hp
  | cons p rest ih =>
    intro dur hex hnc
    rcases p with ⟨text, unit⟩
    have hsplit : (∃ q ∈ rest, parseU64 q.1 = none) ∨ parseU64 text = none := by
      rcases hex with ⟨q, hq, hqn⟩
      rcases List.mem_cons.mp hq with rfl | hq'
      · exact Or.inr hqn
      · exact Or.inl ⟨q, hq', hqn⟩
    cases hp : parseU64 text with
    | none => simp only [runSegments, hp]
    | some val =>
      have hrest : ∃ q ∈ rest, parseU64 q.1 = none := by
        rcases hsplit with h | h
        · exact h
        · rw [hp] at h; cases h
      simp only [runSegments, hp] at hnc ⊢
      by_cases h1 : (if unit = 's' then val
          else if unit = 'm' then val * 60 else val * 3600) ≥ 2 ^ 64
      · rw [if_pos h1] at hnc; exact absurd rfl hnc
      · rw [if_neg h1] at hnc ⊢
        by_cases h2 : dur + (if unit = 's' then val
            else if unit = 'm' then val * 60 else val * 3600) ≥ 2 ^ 64
        · rw [if_pos h2] at hnc; exact absurd rfl hnc
        · rw [if_neg h2] at hnc ⊢
          exact ih _ hrest hnc

/-! ### Characterizations of `fromStr` -/

theorem fromStr_run {s : String} (h : (unitSegments s).isEmpty = false) :
    fromStr s = runSegments (unitSegments s) 0 := by
  simp [fromStr, h]

theorem fromStr_ok_lt {s : String} {n : Nat} (h : fromStr s = .ok n) :
    n < 2 ^ 64 := by
  cases he : (unitSegments s).isEmpty with
  | true =>
    have : fromStr s = .err .durationNotFound := by simp [fromStr, he]
    rw [this] at h
    exact ParseResult.noConfusion h
  | false =>
    rw [fromStr_run he] at h
    exact runSegments_ok_lt _ 0 n (by decide) h

/-! ### Claim theorems: the duration codec -/

/-- C5: for every input `x` accepted by `DurationWrapper::from_str` with
total `n` seconds (in particular every input made of `m` and `s` segments
with non-negative integer magnitudes), re-parsing the `Display` rendering of
the parsed duration reproduces exactly the same duration:
`parse(format(parse(x))) == parse(x)`. -/
theorem claim_C5_roundtrip (x : String) (n : Nat) (h : fromStr x = .ok n) :
    fromStr (display n) = .ok n := by
  have hn : n < 2 ^ 64 := fromStr_ok_lt h
  have hseg := unitSegments_display n
  have hne : (unitSegments (display n)).isEmpty = false := by rw [hseg]; rfl
  rw [fromStr_run hne, hseg]
  have hA : parseU64 (natToChars (n / 60)) = some (n / 60) :=
    parseU64_natToChars (by omega)
  have hB : parseU64 (natToChars (n % 60)) = some (n % 60) :=
    parseU64_natToChars (by omega)
  have c1 : (('m' : Char) = 's') = False := by simp
  have c2 : (('m' : Char) = 'm') = True := by simp
  have c3 : (('s' : Char) = 's') = True := by simp
  simp only [runSegments, hA, hB, c1, c2, c3, if_true, if_false]
  rw [if_neg (show ¬ n / 60 * 60 ≥ 2 ^ 64 from by omega),
    if_neg (show ¬ 0 + n / 60 * 60 ≥ 2 ^ 64 from by omega),
    if_neg (show ¬ n % 60 ≥ 2 ^ 64 from by omega),
    if_neg (show ¬ 0 + n / 60 * 60 + n % 60 ≥ 2 ^ 64 from by omega)]
  rw [show 0 + n / 60 * 60 + n % 60 = n from by omega]

/-- Witness for C5 at the concrete input `"10m5s"`. -/
theorem claim_C5_roundtrip_witness : fromStr (display 605) = .ok 605 :=
  claim_C5_roundtrip "10m5s" 605 (by decide)

/-- C6: `Display` always renders `"<minutes>m<seconds>s"` with the seconds
part below 60 and never emits an `h` unit; concretely,
`format(parse("2h"))` is the string `"120m0s"`. -/
theorem claim_C6_display_shape :
    (∀ n : Nat, (display n).data
        = natToChars (n / 60) ++ ('m' :: (natToChars (n % 60) ++ ['s'])) ∧
      n % 60 < 60 ∧ 'h' ∉ (display n).data) ∧
    fromStr "2h" = .ok 7200 ∧ display 7200 = "120m0s" := by
  refine ⟨fun n => ⟨display_data n, Nat.mod_lt _ (by omega), ?_⟩,
    by decide, by decide⟩
  rw [display_data]
  intro hmem
  rcases List.mem_append.mp hmem with hm | hm
  · rcases natToChars_mem _ hm with ⟨d, hd, hc⟩
    exact (digit_props hd).2.2.2.2.2.1 hc.symm
  · rcases List.mem_cons.mp hm with hm | hm
    · exact absurd hm (by decide)
    · rcases List.mem_append.mp hm with hm | hm
      · rcases natToChars_mem _ hm with ⟨d, hd, hc⟩
        exact (digit_props hd).2.2.2.2.2.1 hc.symm
      · exact absurd (List.mem_singleton.mp hm) (by decide)

/-- C7 counterexample: the input below contains the unit-tagged segment
`("x", 'm')`, whose numeric prefix is not a non-negative integer, yet
`from_str` does not fail with `InvalidNumber`: the two `s` segments sum to
`2 ^ 64` seconds first, and `Duration + Duration` panics on `u64` overflow
before the bad segment is reached. -/
theorem claim_C7_counterexample :
    (['x'], 'm') ∈ unitSegments "18446744073709551615s1sxm" ∧
    fromStr "18446744073709551615s1sxm" = .crash ∧
    fromStr "18446744073709551615s1sxm" ≠ .err .invalidNumber := by decide

/-- C7 amended: `parse("")` and `parse("abc")` fail with
`DurationNotFound` and `parse("xm")` fails with `InvalidNumber`; parsing
fails with `DurationNotFound` exactly when zero unit-tagged segments are
found; and when some unit-tagged segment's numeric prefix fails to parse as
a `u64`, the call fails with `InvalidNumber` provided the accumulated
duration does not overflow (panic) first. -/
theorem claim_C7_amended :
    fromStr "" = .err .durationNotFound ∧
    fromStr "abc" = .err .durationNotFound ∧
    fromStr "xm" = .err .invalidNumber ∧
    (∀ s : String, fromStr s = .err .durationNotFound ↔
      (segmentsUnits (preprocess s)).2 = []) ∧
    (∀ s : String, fromStr s ≠ .crash →
      (∃ p ∈ unitSegments s, parseU64 p.1 = none) →
      fromStr s = .err .invalidNumber) := by
  refine ⟨by decide, by decide, by decide, fun s => ?_, fun s hnc hex => ?_⟩
  · have hlen := su_length (preprocess s)
    constructor
    · intro h
      by_contra hU
      have hne : (unitSegments s).isEmpty = false := by
        have hzip : (unitSegments s).length
            = (segmentsUnits (preprocess s)).2.length := by
          show ((segmentsUnits (preprocess s)).1.zip
            (segmentsUnits (preprocess s)).2).length = _
          rw [List.length_zip, hlen]
          omega
        have hpos : 0 < (segmentsUnits (preprocess s)).2.length :=
          List.length_pos.mpr hU
        cases hu : unitSegments s with
        | nil => rw [hu] at hzip; simp at hzip; omega
        | cons a as => rfl
      rw [fromStr_run hne] at h
      exact runSegments_ne_notFound _ _ h
    · intro hU
      have hempty : unitSegments s = [] := by
        show ((segmentsUnits (preprocess s)).1.zip
          (segmentsUnits (preprocess s)).2) = []
        rw [hU]
        exact List.zip_nil_right
      simp [fromStr, hempty]
  · have hne : (unitSegments s).isEmpty = false := by
      rcases hex with ⟨p, hp, _⟩
      cases hu : unitSegments s with
      | nil => rw [hu] at hp; cases hp
      | cons a as => rfl
    rw [fromStr_run hne] at hnc ⊢
    exact runSegments_invalid _ _ hex hnc

/-- Witness for the amended C7: `"10mxs"` has a bad second segment and no
overflow, so the parse fails with `InvalidNumber`. -/
theorem claim_C7_amended_witness : fromStr "10mxs" = .err .invalidNumber :=
  claim_C7_amended.2.2.2.2 "10mxs" (by decide)
    ⟨(['x'], 's'), by decide, by decide⟩

/-- C10: appending to a parseable prefix any trailing run containing no
unit character leaves the parse result unchanged — the trailing characters
are silently ignored because `zip` drops the segment after the last unit
character. -/
theorem claim_C10_trailing_ignored (x r : String)
    (hr : ∀ c ∈ r.data, Char.toLower c ∉ unitPattern) :
    fromStr (x ++ r) = fromStr x := by
  have hpr : patFree (preprocess r) := by
    intro c hc
    have hc' := List.mem_filter.mp hc
    rcases List.mem_map.mp hc'.1 with ⟨c0, hc0, rfl⟩
    exact hr c0 hc0
  have hdata : (x ++ r).data = x.data ++ r.data := rfl
  have hpre : preprocess (x ++ r) = preprocess x ++ preprocess r := by
    show (((x ++ r).data.map Char.toLower).filter (fun c => c ≠ ' ')) = _
    rw [hdata, List.map_append, List.filter_append]
    rfl
  have hzip : unitSegments (x ++ r) = unitSegments x := by
    show ((segmentsUnits (preprocess (x ++ r))).1.zip
        (segmentsUnits (preprocess (x ++ r))).2)
      = ((segmentsUnits (preprocess x)).1.zip
        (segmentsUnits (preprocess x)).2)
    rw [hpre, su_suffix_patfree hpr (preprocess x)]
    exact zip_extendLast _ _ _ (su_length (preprocess x))
  cases he : (unitSegments x).isEmpty with
  | true => simp [fromStr, hzip, he]
  | false => rw [fromStr_run (by rw [hzip]; exact he), fromStr_run he, hzip]

/-- Witness for C10: `"10m5"` parses like `"10m"`. -/
theorem claim_C10_witness :
    fromStr ("10m" ++ "5") = fromStr "10m" ∧ fromStr "10m" = .ok 600 :=
  ⟨claim_C10_trailing_ignored "10m" "5" (by decide), by decide⟩

/-! ### Claim theorems: daemon notification and pacing -/

theorem alertLoop_spec (l : List Json) : ∀ (fuel i : Nat),
    l.length - i < fuel →
    alertLoop (.arr l) fuel i = (l.drop i).takeWhile (fun j => !j.isNull) := by
  intro fuel
  induction fuel with
  | zero => intro i h; omega
  | succ f ih =>
    intro i h
    by_cases hi : i < l.length
    · have hidx : Json.idx (.arr l) i = l[i] := by
        show l.getD i .null = l[i]
        simp [List.getD_eq_getElem?_getD, List.getElem?_eq_getElem hi]
      have hdrop : l.drop i = l[i] :: l.drop (i + 1) :=
        List.drop_eq_getElem_cons hi
      rw [alertLoop, hidx, hdrop, List.takeWhile_cons]
      cases hnull : (l[i]).isNull with
      | true => simp [hnull]
      | false => simp [hnull, ih (i + 1) (by omega)]
    · have hge : l.length ≤ i := Nat.le_of_not_lt hi
      have hidx : Json.idx (.arr l) i = .null := by
        show l.getD i .null = .null
        simp [List.getD_eq_getElem?_getD, List.getElem?_eq_none hge]
      have hdrop : l.drop i = [] := List.drop_eq_nil_of_le hge
      rw [alertLoop, hidx, hdrop]
      simp [Json.isNull]

/-- C8: during the notification step, an alerts payload whose
`alerts.alert` field is not list-shaped makes the daemon panic instead of
rendering; when the field is an array, the loop walks it from index 0 and
emits one notification per record up to the first null element. -/
theorem claim_C8_alerts_contract (response : Json) :
    (((response.get "alerts").get "alert").isArray = false →
      renderAlerts response = none) ∧
    (∀ l : List Json, (response.get "alerts").get "alert" = .arr l →
      renderAlerts response = some (l.takeWhile (fun j => !j.isNull))) := by
  constructor
  · intro h
    simp [renderAlerts, h]
  · intro l hl
    simp only [renderAlerts, hl, Json.isArray, if_true]
    rw [alertLoop_spec l (l.length + 1) 0 (by omega)]
    simp

/-- Witness for C8: a string-shaped `alerts.alert` panics; a well-shaped
one renders records up to the first null. -/
theorem claim_C8_witness :
    renderAlerts badAlertsDoc = none ∧
    renderAlerts goodAlertsDoc
      = some (alertRecords.takeWhile (fun j => !j.isNull)) :=
  ⟨(claim_C8_alerts_contract badAlertsDoc).1 (by decide),
   (claim_C8_alerts_contract goodAlertsDoc).2 alertRecords rfl⟩

/-- C9: on the very first loop iteration the notification condition
`last_notif.elapsed() >= notif_interval` already holds, because
`last_notif` is initialized to `start - notif_interval`; so a notification
emission is attempted immediately at startup. -/
theorem claim_C9_first_iteration_notifies
    (execInterval notifInterval start : Int) :
    (daemonStep execInterval notifInterval
      (daemonInit start notifInterval)).notifCount = 1 := by
  have hcond : start - (start - notifInterval) ≥ notifInterval := by omega
  simp only [daemonStep, daemonInit]
  rw [if_pos hcond]

/-- C2 (against the claim): with `exec_interval = 60`, `notif_interval =
600` and instantaneous work, 13 loop iterations complete while the
simulated clock still reads 60 s — so a 620-second window sees at least 13
fetches, not the claimed 10–11, and the only notification fires at t = 0,
before the 600 s mark.  The pacing sleep sits inside the notification
conditional (src/daemon.rs lines 270–275), so non-notify iterations never
suspend. -/
theorem claim_C2_pacing_inside_notify :
    ((daemonStep 60 600)^[13] (daemonInit 0 600)).fetchCount = 13 ∧
    ((daemonStep 60 600)^[13] (daemonInit 0 600)).now = 60 ∧
    ((daemonStep 60 600)^[13] (daemonInit 0 600)).notifCount = 1 ∧
    ((daemonStep 60 600)^[13] (daemonInit 0 600)).lastNotif = 0 := by
  decide

/-! ### Claim theorems: API error handling -/

/-- C1 (against the claim): when the provider returns a document with a
non-empty top-level `error` field, `make_request` does return the error
document as `ApiError`, but `make_current_request` has already stored that
document in `cache_current` with a fresh `Instant` — the slot's payload is
replaced and its timestamp advances from 5 to 10. -/
theorem claim_C1_provider_error_updates_cache :
    make_request apiSt ⟨true, false, false⟩
        ⟨.success errorDoc, .success .null, .success .null⟩ 10 =
      some ({ current := some (.error (.apiError errorDoc)), alerts := none,
              forecast := none },
            { key := "k", cache_current := some (errorDoc, 10),
              cache_alerts := none, cache_forecast := none }) ∧
    apiSt.cache_current = some (okPayload, 5) :=
  ⟨rfl, rfl⟩

/-- C3 (against the claim): a transport failure hits the `.unwrap()` on
`request.send()` inside `make_current_request`, so the call panics (the
model's `none`) instead of returning `Error::Transport`; `make_request`
then panics as well. -/
theorem claim_C3_transport_failure_panics :
    make_current_request apiSt .failure 10 = none ∧
    make_request apiSt ⟨true, true, true⟩
      ⟨.failure, .success .null, .success .null⟩ 10 = none :=
  ⟨rfl, rfl⟩

/-! ### Claim theorems: category independence in `make_request` -/

theorem opt_some_bind {α β : Type _} (a : α) (f : α → Option β) :
    (some a).bind f = f a := rfl

theorem opt_map_bind {α β γ : Type _} (x : Option α) (f : α → Option β)
    (g : β → γ) : (x.bind f).map g = x.bind fun a => (f a).map g := by
  cases x <;> rfl

theorem opt_map_map {α β γ : Type _} (x : Option α) (f : α → β) (g : β → γ) :
    (x.map f).map g = x.map fun a => g (f a) := by
  cases x <;> rfl

theorem categoryCall_false_eq (fetch : ApiState → Option (Json × ApiState))
    (st : ApiState) : categoryCall false fetch st = some (none, st) := rfl

theorem categoryCall_some_of_false
    {fetch : ApiState → Option (Json × ApiState)} {st : ApiState}
    {r : Option (Except ApiResponseError Json)} {st' : ApiState}
    (h : categoryCall false fetch st = some (r, st')) :
    r = none ∧ st' = st := by
  rw [categoryCall_false_eq] at h
  injection h with h'
  injection h' with ha hb
  exact ⟨ha.symm, hb.symm⟩

theorem categoryCall_current_state {flag : Bool} {net : NetOutcome}
    {now : Nat} {st : ApiState}
    {r : Option (Except ApiResponseError Json)} {st' : ApiState}
    (h : categoryCall flag (fun s => make_current_request s net now) st
      = some (r, st')) :
    st'.cache_alerts = st.cache_alerts ∧
    st'.cache_forecast = st.cache_forecast := by
  cases flag with
  | false =>
    obtain ⟨_, rfl⟩ := categoryCall_some_of_false h
    exact ⟨rfl, rfl⟩
  | true =>
    cases net with
    | failure => exact Option.noConfusion h
    | success doc =>
      have h' : (if (doc.get "error").isNull = true
          then some (some (Except.ok doc),
            { st with cache_current := some (doc, now) })
          else some (some (Except.error (.apiError doc)),
            { st with cache_current := some (doc, now) })) = some (r, st') := h
      by_cases he : (doc.get "error").isNull = true
      · rw [if_pos he] at h'
        injection h' with h''
        injection h'' with hr hs
        rw [← hs]
        exact ⟨rfl, rfl⟩
      · rw [if_neg he] at h'
        injection h' with h''
        injection h'' with hr hs
        rw [← hs]
        exact ⟨rfl, rfl⟩

theorem categoryCall_alerts_state {flag : Bool} {net : NetOutcome}
    {now : Nat} {st : ApiState}
    {r : Option (Except ApiResponseError Json)} {st' : ApiState}
    (h : categoryCall flag (fun s => make_alerts_request s net now) st
      = some (r, st')) :
    st'.cache_current = st.cache_current ∧
    st'.cache_forecast = st.cache_forecast := by
  cases flag with
  | false =>
    obtain ⟨_, rfl⟩ := categoryCall_some_of_false h
    exact ⟨rfl, rfl⟩
  | true =>
    cases net with
    | failure => exact Option.noConfusion h
    | success doc =>
      have h' : (if (doc.get "error").isNull = true
          then some (some (Except.ok doc),
            { st with cache_alerts := some (doc, now) })
          else some (some (Except.error (.apiError doc)),
            { st with cache_alerts := some (doc, now) })) = some (r, st') := h
      by_cases he : (doc.get "error").isNull = true
      · rw [if_pos he] at h'
        injection h' with h''
        injection h'' with hr hs
        rw [← hs]
        exact ⟨rfl, rfl⟩
      · rw [if_neg he] at h'
        injection h' with h''
        injection h'' with hr hs
        rw [← hs]
        exact ⟨rfl, rfl⟩

theorem categoryCall_forecast_state {flag : Bool} {net : NetOutcome}
    {now : Nat} {st : ApiState}
    {r : Option (Except ApiResponseError Json)} {st' : ApiState}
    (h : categoryCall flag (fun s => make_forecast_request s net now) st
      = some (r, st')) :
    st'.cache_current = st.cache_current ∧
    st'.cache_alerts = st.cache_alerts := by
  cases flag with
  | false =>
    obtain ⟨_, rfl⟩ := categoryCall_some_of_false h
    exact ⟨rfl, rfl⟩
  | true =>
    cases net with
    | failure => exact Option.noConfusion h
    | success doc =>
      have h' : (if (doc.get "error").isNull = true
          then some (some (Except.ok doc),
            { st with cache_forecast := some (doc, now) })
          else some (some (Except.error (.apiError doc)),
            { st with cache_forecast := some (doc, now) })) = some (r, st') := h
      by_cases he : (doc.get "error").isNull = true
      · rw [if_pos he] at h'
        injection h' with h''
        injection h'' with hr hs
        rw [← hs]
        exact ⟨rfl, rfl⟩
      · rw [if_neg he] at h'
        injection h' with h''
        injection h'' with hr hs
        rw [← hs]
        exact ⟨rfl, rfl⟩

theorem make_request_steps {st : ApiState} {config : RequestTypes}
    {net : NetTriple} {now : Nat} {resp : ApiResponse} {st' : ApiState}
    (h : make_request st config net now = some (resp, st')) :
    ∃ st1 st2,
      categoryCall config.current
        (fun s => make_current_request s net.current now) st
          = some (resp.current, st1) ∧
      categoryCall config.alerts
        (fun s => make_alerts_request s net.alerts now) st1
          = some (resp.alerts, st2) ∧
      categoryCall config.forecast
        (fun s => make_forecast_request s net.forecast now) st2
          = some (resp.forecast, st') := by
  unfold make_request at h
  rcases Option.bind_eq_some.mp h with ⟨⟨cur, st1⟩, h1, h⟩
  rcases Option.bind_eq_some.mp h with ⟨⟨al, st2⟩, h2, h⟩
  rcases Option.map_eq_some'.mp h with ⟨⟨fo, st3⟩, h3, heq⟩
  injection heq with hr hs
  subst hr
  subst hs
  exact ⟨st1, st2, h1, h2, h3⟩

theorem make_request_flag_off :
    ∀ (st : ApiState) (config : RequestTypes) (net : NetTriple) (now : Nat)
      (resp : ApiResponse) (st' : ApiState),
    make_request st config net now = some (resp, st') →
      (config.current = false →
        resp.current = none ∧ st'.cache_current = st.cache_current) ∧
      (config.alerts = false →
        resp.alerts = none ∧ st'.cache_alerts = st.cache_alerts) ∧
      (config.forecast = false →
        resp.forecast = none ∧ st'.cache_forecast = st.cache_forecast) := by
  intro st config net now resp st' h
  obtain ⟨st1, st2, h1, h2, h3⟩ := make_request_steps h
  refine ⟨fun hc => ?_, fun ha => ?_, fun hf => ?_⟩
  · rw [hc] at h1
    obtain ⟨hr, hst⟩ := categoryCall_some_of_false h1
    have hA := (categoryCall_alerts_state h2).1
    have hF := (categoryCall_forecast_state h3).1
    exact ⟨hr, by rw [hF, hA, hst]⟩
  · rw [ha] at h2
    obtain ⟨hr, hst⟩ := categoryCall_some_of_false h2
    have hC := (categoryCall_current_state h1).1
    have hF := (categoryCall_forecast_state h3).2
    exact ⟨hr, by rw [hF, hst, hC]⟩
  · rw [hf] at h3
    obtain ⟨hr, hst⟩ := categoryCall_some_of_false h3
    have hC := (categoryCall_current_state h1).2
    have hA := (categoryCall_alerts_state h2).2
    exact ⟨hr, by rw [hst, hA, hC]⟩

theorem make_request_skips_forecast :
    ∀ (st : ApiState) (nc na : NetOutcome) (now : Nat) (nfA nfB : NetOutcome),
    make_request st ⟨true, false, true⟩ ⟨nc, na, nfA⟩ now
      = make_request st ⟨true, false, true⟩ ⟨nc, na, nfB⟩ now := by
  intro st nc na now nfA nfB
  unfold make_request
  simp only [categoryCall_false_eq]

theorem tail_congr (ca cf : Bool) (na nf : NetOutcome) (now : Nat)
    (stA stB : ApiState) (hal : stA.cache_alerts = stB.cache_alerts)
    (hfo : stA.cache_forecast = stB.cache_forecast) :
    ((categoryCall ca (fun s => make_alerts_request s na now) stA).bind
      fun p2 => (categoryCall cf (fun s => make_forecast_request s nf now)
        p2.2).map fun p3 => (p2.1, p3.1, p3.2.cache_alerts,
          p3.2.cache_forecast))
    = ((categoryCall ca (fun s => make_alerts_request s na now) stB).bind
      fun p2 => (categoryCall cf (fun s => make_forecast_request s nf now)
        p2.2).map fun p3 => (p2.1, p3.1, p3.2.cache_alerts,
          p3.2.cache_forecast)) := by
  have inner : ∀ (s1 s2 : ApiState), s1.cache_alerts = s2.cache_alerts →
      s1.cache_forecast = s2.cache_forecast →
      ∀ r : Option (Except ApiResponseError Json),
      ((categoryCall cf (fun s => make_forecast_request s nf now) s1).map
        fun p3 => (r, p3.1, p3.2.cache_alerts, p3.2.cache_forecast))
      = ((categoryCall cf (fun s => make_forecast_request s nf now) s2).map
        fun p3 => (r, p3.1, p3.2.cache_alerts, p3.2.cache_forecast)) := by
    intro s1 s2 h1 h2 r
    cases cf with
    | false => simp [categoryCall_false_eq, h1, h2]
    | true =>
      cases nf with
      | failure => rfl
      | success doc =>
        have e1 : categoryCall true
            (fun s => make_forecast_request s (.success doc) now) s1
            = if (doc.get "error").isNull = true
              then some (some (Except.ok doc),
                { s1 with cache_forecast := some (doc, now) })
              else some (some (Except.error (.apiError doc)),
                { s1 with cache_forecast := some (doc, now) }) := rfl
        have e2 : categoryCall true
            (fun s => make_forecast_request s (.success doc) now) s2
            = if (doc.get "error").isNull = true
              then some (some (Except.ok doc),
                { s2 with cache_forecast := some (doc, now) })
              else some (some (Except.error (.apiError doc)),
                { s2 with cache_forecast := some (doc, now) }) := rfl
        rw [e1, e2]
        by_cases he : (doc.get "error").isNull = true
        · rw [if_pos he, if_pos he]
          simp [h1]
        · rw [if_neg he, if_neg he]
          simp [h1]
  cases ca with
  | false =>
    rw [categoryCall_false_eq, categoryCall_false_eq,
      opt_some_bind, opt_some_bind]
    exact inner stA stB hal hfo none
  | true =>
    cases na with
    | failure => rfl
    | success doc =>
      have e1 : categoryCall true
          (fun s => make_alerts_request s (.success doc) now) stA
          = if (doc.get "error").isNull = true
            then some (some (Except.ok doc),
              { stA with cache_alerts := some (doc, now) })
            else some (some (Except.error (.apiError doc)),
              { stA with cache_alerts := some (doc, now) }) := rfl
      have e2 : categoryCall true
          (fun s => make_alerts_request s (.success doc) now) stB
          = if (doc.get "error").isNull = true
            then some (some (Except.ok doc),
              { stB with cache_alerts := some (doc, now) })
            else some (some (Except.error (.apiError doc)),
              { stB with cache_alerts := some (doc, now) }) := rfl
      rw [e1, e2]
      by_cases he : (doc.get "error").isNull = true
      · rw [if_pos he, if_pos he, opt_some_bind, opt_some_bind]
        exact inner { stA with cache_alerts := some (doc, now) }
          { stB with cache_alerts := some (doc, now) } rfl hfo _
      · rw [if_neg he, if_neg he, opt_some_bind, opt_some_bind]
        exact inner { stA with cache_alerts := some (doc, now) }
          { stB with cache_alerts := some (doc, now) } rfl hfo _

theorem make_request_current_independent :
    ∀ (st : ApiState) (config : RequestTypes) (na nf : NetOutcome)
      (now : Nat) (d1 d2 : Json),
    (make_request st config ⟨.success d1, na, nf⟩ now).map
        (fun p => (p.1.alerts, p.1.forecast,
          p.2.cache_alerts, p.2.cache_forecast))
      = (make_request st config ⟨.success d2, na, nf⟩ now).map
        (fun p => (p.1.alerts, p.1.forecast,
          p.2.cache_alerts, p.2.cache_forecast)) := by
  intro st config na nf now d1 d2
  unfold make_request
  dsimp only
  cases hc : config.current with
  | false => rw [categoryCall_false_eq, categoryCall_false_eq]
  | true =>
    have e1 : categoryCall true
        (fun s => make_current_request s (.success d1) now) st
        = if (d1.get "error").isNull = true
          then some (some (Except.ok d1),
            { st with cache_current := some (d1, now) })
          else some (some (Except.error (.apiError d1)),
            { st with cache_current := some (d1, now) }) := rfl
    have e2 : categoryCall true
        (fun s => make_current_request s (.success d2) now) st
        = if (d2.get "error").isNull = true
          then some (some (Except.ok d2),
            { st with cache_current := some (d2, now) })
          else some (some (Except.error (.apiError d2)),
            { st with cache_current := some (d2, now) }) := rfl
    rw [e1, e2]
    have key : ∀ (r1 r2 : Option (Except ApiResponseError Json)),
        (((some (r1, { st with cache_current := some (d1, now) })).bind
          fun p1 => (categoryCall config.alerts
              (fun s => make_alerts_request s na now) p1.2).bind
            fun p2 => (categoryCall config.forecast
                (fun s => make_forecast_request s nf now) p2.2).map
              fun p3 => (ApiResponse.mk p1.1 p2.1 p3.1, p3.2)).map
          (fun p => (p.1.alerts, p.1.forecast,
            p.2.cache_alerts, p.2.cache_forecast)))
        = (((some (r2, { st with cache_current := some (d2, now) })).bind
          fun p1 => (categoryCall config.alerts
              (fun s => make_alerts_request s na now) p1.2).bind
            fun p2 => (categoryCall config.forecast
                (fun s => make_forecast_request s nf now) p2.2).map
              fun p3 => (ApiResponse.mk p1.1 p2.1 p3.1, p3.2)).map
          (fun p => (p.1.alerts, p.1.forecast,
            p.2.cache_alerts, p.2.cache_forecast))) := by
      intro r1 r2
      rw [opt_some_bind, opt_some_bind, opt_map_bind, opt_map_bind]
      simp only [opt_map_map]
      exact tail_congr config.alerts config.forecast na nf now
        { st with cache_current := some (d1, now) }
        { st with cache_current := some (d2, now) } rfl rfl
    by_cases h1 : (d1.get "error").isNull = true <;>
      by_cases h2 : (d2.get "error").isNull = true
    · rw [if_pos h1, if_pos h2]; exact key _ _
    · rw [if_pos h1, if_neg h2]; exact key _ _
    · rw [if_neg h1, if_pos h2]; exact key _ _
    · rw [if_neg h1, if_neg h2]; exact key _ _


theorem opt_bind_congr {α β : Type _} {x : Option α} {f g : α → Option β}
    (h : ∀ a, f a = g a) : x.bind f = x.bind g := by
  cases x with
  | none => rfl
  | some a => exact h a

theorem fo_stage_congr (cf : Bool) (nf : NetOutcome) (now : Nat)
    (s1 s2 : ApiState) (hc : s1.cache_current = s2.cache_current)
    (hf : s1.cache_forecast = s2.cache_forecast)
    (a : Option (Except ApiResponseError Json)) :
    ((categoryCall cf (fun s => make_forecast_request s nf now) s1).map
      fun p3 => (a, p3.1, p3.2.cache_current, p3.2.cache_forecast))
    = ((categoryCall cf (fun s => make_forecast_request s nf now) s2).map
      fun p3 => (a, p3.1, p3.2.cache_current, p3.2.cache_forecast)) := by
  cases cf with
  | false => simp [categoryCall_false_eq, hc, hf]
  | true =>
    cases nf with
    | failure => rfl
    | success doc =>
      have e1 : categoryCall true
          (fun s => make_forecast_request s (.success doc) now) s1
          = if (doc.get "error").isNull = true
            then some (some (Except.ok doc),
              { s1 with cache_forecast := some (doc, now) })
            else some (some (Except.error (.apiError doc)),
              { s1 with cache_forecast := some (doc, now) }) := rfl
      have e2 : categoryCall true
          (fun s => make_forecast_request s (.success doc) now) s2
          = if (doc.get "error").isNull = true
            then some (some (Except.ok doc),
              { s2 with cache_forecast := some (doc, now) })
            else some (some (Except.error (.apiError doc)),
              { s2 with cache_forecast := some (doc, now) }) := rfl
      rw [e1, e2]
      by_cases he : (doc.get "error").isNull = true
      · rw [if_pos he, if_pos he]
        simp [hc]
      · rw [if_neg he, if_neg he]
        simp [hc]

theorem tail_alerts_congr (ca cf : Bool) (nf : NetOutcome) (now : Nat)
    (s : ApiState) (d1 d2 : Json)
    (a : Option (Except ApiResponseError Json)) :
    ((categoryCall ca (fun x => make_alerts_request x (.success d1) now)
        s).bind fun p2 =>
      (categoryCall cf (fun x => make_forecast_request x nf now) p2.2).map
        fun p3 => (a, p3.1, p3.2.cache_current, p3.2.cache_forecast))
    = ((categoryCall ca (fun x => make_alerts_request x (.success d2) now)
        s).bind fun p2 =>
      (categoryCall cf (fun x => make_forecast_request x nf now) p2.2).map
        fun p3 => (a, p3.1, p3.2.cache_current, p3.2.cache_forecast)) := by
  cases ca with
  | false => rfl
  | true =>
    have e1 : categoryCall true
        (fun x => make_alerts_request x (.success d1) now) s
        = if (d1.get "error").isNull = true
          then some (some (Except.ok d1),
            { s with cache_alerts := some (d1, now) })
          else some (some (Except.error (.apiError d1)),
            { s with cache_alerts := some (d1, now) }) := rfl
    have e2 : categoryCall true
        (fun x => make_alerts_request x (.success d2) now) s
        = if (d2.get "error").isNull = true
          then some (some (Except.ok d2),
            { s with cache_alerts := some (d2, now) })
          else some (some (Except.error (.apiError d2)),
            { s with cache_alerts := some (d2, now) }) := rfl
    rw [e1, e2]
    have key : ∀ (r1 r2 : Option (Except ApiResponseError Json)),
        ((some (r1, { s with cache_alerts := some (d1, now) })).bind
          fun p2 => (categoryCall cf
              (fun x => make_forecast_request x nf now) p2.2).map
            fun p3 => (a, p3.1, p3.2.cache_current, p3.2.cache_forecast))
        = ((some (r2, { s with cache_alerts := some (d2, now) })).bind
          fun p2 => (categoryCall cf
              (fun x => make_forecast_request x nf now) p2.2).map
            fun p3 => (a, p3.1, p3.2.cache_current,
              p3.2.cache_forecast)) := by
      intro r1 r2
      rw [opt_some_bind, opt_some_bind]
      exact fo_stage_congr cf nf now
        { s with cache_alerts := some (d1, now) }
        { s with cache_alerts := some (d2, now) } rfl rfl a
    by_cases h1 : (d1.get "error").isNull = true <;>
      by_cases h2 : (d2.get "error").isNull = true
    · rw [if_pos h1, if_pos h2]; exact key _ _
    · rw [if_pos h1, if_neg h2]; exact key _ _
    · rw [if_neg h1, if_pos h2]; exact key _ _
    · rw [if_neg h1, if_neg h2]; exact key _ _

theorem make_request_alerts_independent :
    ∀ (st : ApiState) (config : RequestTypes) (nc nf : NetOutcome)
      (now : Nat) (d1 d2 : Json),
    (make_request st config ⟨nc, .success d1, nf⟩ now).map
        (fun p => (p.1.current, p.1.forecast,
          p.2.cache_current, p.2.cache_forecast))
      = (make_request st config ⟨nc, .success d2, nf⟩ now).map
        (fun p => (p.1.current, p.1.forecast,
          p.2.cache_current, p.2.cache_forecast)) := by
  intro st config nc nf now d1 d2
  unfold make_request
  dsimp only
  rw [opt_map_bind, opt_map_bind]
  apply opt_bind_congr
  intro p1
  rw [opt_map_bind, opt_map_bind]
  simp only [opt_map_map]
  exact tail_alerts_congr config.alerts config.forecast nf now p1.2 d1 d2 p1.1

theorem make_request_forecast_independent :
    ∀ (st : ApiState) (config : RequestTypes) (nc na : NetOutcome)
      (now : Nat) (d1 d2 : Json),
    (make_request st config ⟨nc, na, .success d1⟩ now).map
        (fun p => (p.1.current, p.1.alerts,
          p.2.cache_current, p.2.cache_alerts))
      = (make_request st config ⟨nc, na, .success d2⟩ now).map
        (fun p => (p.1.current, p.1.alerts,
          p.2.cache_current, p.2.cache_alerts)) := by
  intro st config nc na now d1 d2
  unfold make_request
  dsimp only
  rw [opt_map_bind, opt_map_bind]
  apply opt_bind_congr
  intro p1
  rw [opt_map_bind, opt_map_bind]
  apply opt_bind_congr
  intro p2
  simp only [opt_map_map]
  cases hf : config.forecast with
  | false => rw [categoryCall_false_eq, categoryCall_false_eq]
  | true =>
    have e1 : categoryCall true
        (fun s => make_forecast_request s (.success d1) now) p2.2
        = if (d1.get "error").isNull = true
          then some (some (Except.ok d1),
            { p2.2 with cache_forecast := some (d1, now) })
          else some (some (Except.error (.apiError d1)),
            { p2.2 with cache_forecast := some (d1, now) }) := rfl
    have e2 : categoryCall true
        (fun s => make_forecast_request s (.success d2) now) p2.2
        = if (d2.get "error").isNull = true
          then some (some (Except.ok d2),
            { p2.2 with cache_forecast := some (d2, now) })
          else some (some (Except.error (.apiError d2)),
            { p2.2 with cache_forecast := some (d2, now) }) := rfl
    rw [e1, e2]
    by_cases h1 : (d1.get "error").isNull = true <;>
      by_cases h2 : (d2.get "error").isNull = true
    · rw [if_pos h1, if_pos h2]; rfl
    · rw [if_pos h1, if_neg h2]; rfl
    · rw [if_neg h1, if_pos h2]; rfl
    · rw [if_neg h1, if_neg h2]; rfl

/-- C4: `make_request` treats the three categories independently: every
category flagged `false` yields `None` and leaves its cache slot untouched;
with `{current: true, forecast: false, alerts: true}` the forecast
category's network outcome is never consulted; and each category's document
has no effect on the other two categories' return values and cache slots —
varying the current, the alerts, or the forecast document (in particular
replacing a healthy document by one carrying a provider error) leaves the
respective other categories' results and cache entries unchanged within the
same call. -/
theorem claim_C4_categories_independent :
    (∀ (st : ApiState) (config : RequestTypes) (net : NetTriple) (now : Nat)
        (resp : ApiResponse) (st' : ApiState),
      make_request st config net now = some (resp, st') →
        (config.current = false →
          resp.current = none ∧ st'.cache_current = st.cache_current) ∧
        (config.alerts = false →
          resp.alerts = none ∧ st'.cache_alerts = st.cache_alerts) ∧
        (config.forecast = false →
          resp.forecast = none ∧ st'.cache_forecast = st.cache_forecast)) ∧
    (∀ (st : ApiState) (nc na : NetOutcome) (now : Nat)
        (nfA nfB : NetOutcome),
      make_request st ⟨true, false, true⟩ ⟨nc, na, nfA⟩ now
        = make_request st ⟨true, false, true⟩ ⟨nc, na, nfB⟩ now) ∧
    (∀ (st : ApiState) (config : RequestTypes) (na nf : NetOutcome)
        (now : Nat) (d1 d2 : Json),
      (make_request st config ⟨.success d1, na, nf⟩ now).map
          (fun p => (p.1.alerts, p.1.forecast,
            p.2.cache_alerts, p.2.cache_forecast))
        = (make_request st config ⟨.success d2, na, nf⟩ now).map
          (fun p => (p.1.alerts, p.1.forecast,
            p.2.cache_alerts, p.2.cache_forecast))) ∧
    (∀ (st : ApiState) (config : RequestTypes) (nc nf : NetOutcome)
        (now : Nat) (d1 d2 : Json),
      (make_request st config ⟨nc, .success d1, nf⟩ now).map
          (fun p => (p.1.current, p.1.forecast,
            p.2.cache_current, p.2.cache_forecast))
        = (make_request st config ⟨nc, .success d2, nf⟩ now).map
          (fun p => (p.1.current, p.1.forecast,
            p.2.cache_current, p.2.cache_forecast))) ∧
    (∀ (st : ApiState) (config : RequestTypes) (nc na : NetOutcome)
        (now : Nat) (d1 d2 : Json),
      (make_request st config ⟨nc, na, .success d1⟩ now).map
          (fun p => (p.1.current, p.1.alerts,
            p.2.cache_current, p.2.cache_alerts))
        = (make_request st config ⟨nc, na, .success d2⟩ now).map
          (fun p => (p.1.current, p.1.alerts,
            p.2.cache_current, p.2.cache_alerts))) :=
  ⟨make_request_flag_off, make_request_skips_forecast,
    make_request_current_independent, make_request_alerts_independent,
    make_request_forecast_independent⟩

/-- Witness for C4 on a non-trivial call: with
`{current: true, forecast: false, alerts: true}`, the current category
receiving a provider-error document and the alerts category a healthy one,
the call succeeds, the forecast result is `None` with its slot untouched
(first conjunct, via the flag-off part), and swapping the alerts document
between the error document and the healthy one leaves the current and
forecast results and their cache slots unchanged (second conjunct, via the
alerts-independence part). -/
theorem claim_C4_witness :
    (({ current := some (.error (.apiError errorDoc)),
        alerts := some (.ok okPayload), forecast := none } :
          ApiResponse).forecast = none ∧
      ({ key := "k", cache_current := some (errorDoc, 10),
         cache_alerts := some (okPayload, 10), cache_forecast := none } :
          ApiState).cache_forecast = apiSt.cache_forecast) ∧
    (make_request apiSt ⟨true, false, true⟩
        ⟨.success okPayload, .success errorDoc, .success .null⟩ 10).map
        (fun p => (p.1.current, p.1.forecast,
          p.2.cache_current, p.2.cache_forecast))
      = (make_request apiSt ⟨true, false, true⟩
        ⟨.success okPayload, .success okPayload, .success .null⟩ 10).map
        (fun p => (p.1.current, p.1.forecast,
          p.2.cache_current, p.2.cache_forecast)) :=
  ⟨(claim_C4_categories_independent.1 apiSt ⟨true, false, true⟩
      ⟨.success errorDoc, .success okPayload, .success .null⟩ 10
      { current := some (.error (.apiError errorDoc)),
        alerts := some (.ok okPayload), forecast := none }
      { key := "k", cache_current := some (errorDoc, 10),
        cache_alerts := some (okPayload, 10), cache_forecast := none }
      rfl).2.2 rfl,
   claim_C4_categories_independent.2.2.2.1 apiSt ⟨true, false, true⟩
     (.success okPayload) (.success .null) 10 errorDoc okPayload⟩
